import Mathlib

/-!
Verification of the decode/playback core of `ffmpeg_player_rs`.

Shallow embedding of the repository's Rust sources:
  * `src/core/decode.rs`  — `Decoder`, `DecoderSplit`, drop-time drain;
  * `src/control/video.rs` — `StreamClock`, the video worker control loop;
  * `src/control/audio.rs` — the sample forwarder and ring back-pressure loop.

External ffmpeg/cpal behaviour (packet reads, decoder submit/receive, hardware
transfer, scaling) is represented by oracles: functions from a call counter to
the outcome the external library returns on that call, so theorems quantify
over every possible backend behaviour.  Machine floating point in `StreamClock`
is abstracted to exact rationals; the sign tests and saturation that the claims
are about are exact under this abstraction.
-/

namespace FFPlayer

/-- Pixel formats (`ffmpeg::format::pixel::Pixel`); only the constructors the
core inspects are distinguished, all others are collapsed into `other`. -/
inductive AvPixel where
  | None
  | RGB24
  | NV12
  | other (code : Nat)
deriving DecidableEq, Repr

/-- Backend errors (`ffmpeg::Error`): `Eof`, `Other {errno}` and a collapsed
constructor for the remaining variants. -/
inductive AvError where
  | Eof
  | Other (errno : Int)
  | otherKind (code : Nat)
deriving DecidableEq, Repr

/-- The `EAGAIN` errno constant compared against in `decoder_receive_frame`. -/
def EAGAIN : Int := 11

/-- Modelled from the spec: `src/core/error.rs` is declared in `core/mod.rs`
but absent from the source tree; §7 of the spec fixes the taxonomy
(`ReadExhausted`, `DecodeExhausted`, `MissingCodecParameters`,
`InvalidResizeParameters`, `StreamNotFound`, `BackendError(inner)` carrying the
backend error verbatim). -/
inductive Error where
  | ReadExhausted
  | DecodeExhausted
  | MissingCodecParameters
  | InvalidResizeParameters
  | StreamNotFound
  | BackendError (inner : AvError)
deriving DecidableEq, Repr

/-- Rational time base (`ffmpeg::Rational`). -/
structure AvRational where
  num : Int
  den : Int
deriving DecidableEq, Repr

/-- A decoded frame (`RawFrame = ffmpeg::util::frame::Video`): the fields the
core reads — pixel format, dimensions, frame PTS, and the packet DTS exposed
by `frame.packet().dts`. -/
structure RawFrame where
  format : AvPixel
  width : Nat
  height : Nat
  pts : Option Int
  pktDts : Int
deriving DecidableEq, Repr

/-- Modelled from the spec: `src/core/time.rs` is absent from the source tree;
the spec describes `Time::new(Some(ts), time_base)` pairing an optional
timestamp with its rational time base. -/
structure Time where
  ts : Option Int
  base : AvRational
deriving DecidableEq, Repr

/-- The outcome of running a piece of Rust code that may panic (failed
`assert!`, `Duration::from_secs_f64` on a negative value, …). -/
inductive RunResult (α : Type) where
  | ok (val : α)
  | panicked
deriving DecidableEq, Repr

/-! ## StreamClock (`src/control/video.rs`, lines 185–217)

Wall-clock instants and durations are modelled as exact rationals (seconds).
`Duration::from_secs_f64` panics when its argument is negative; with exact
arithmetic the sign of `pts * time_base_seconds` agrees with the sign of the
f64 product, so the panic condition is preserved.  `Instant::checked_add`
returns `None` only when the sum is unrepresentable, which has no counterpart
over exact rationals, and `Instant::duration_since` saturates to the zero
duration when the other instant is later. -/

/-- The largest value a `std::time::Duration` can hold, in seconds:
`u64::MAX` whole seconds plus `999_999_999` nanoseconds. -/
def DURATION_MAX_SECS : ℚ :=
  (2 ^ 64 - 1 : ℚ) + (10 ^ 9 - 1 : ℚ) / 10 ^ 9

/-- `std::time::Duration::from_secs_f64`: panics on a negative argument and
when the value overflows `Duration` (more than `u64::MAX` seconds).  The NaN
and infinity panics have no counterpart in the exact-rational model. -/
def durationFromSecs (x : ℚ) : RunResult ℚ :=
  if x < 0 ∨ DURATION_MAX_SECS < x then .panicked else .ok x

/-- `std::time::Instant::checked_add` over exact rational instants. -/
def instantCheckedAdd (t d : ℚ) : Option ℚ :=
  some (t + d)

/-- `std::time::Instant::duration_since`: saturates to zero when `now` is
later than `t`. -/
def instantDurationSince (t now : ℚ) : ℚ :=
  max 0 (t - now)

/-- `StreamClock` state: `time_base_seconds` and the `start_time` instant
captured at construction. -/
structure StreamClock where
  time_base_seconds : ℚ
  start_time : ℚ
deriving DecidableEq, Repr

/-- `StreamClock::new`: `time_base_seconds = numerator / denominator`, start
time captured as the current instant. -/
def StreamClock.new (base : AvRational) (now : ℚ) : StreamClock :=
  { time_base_seconds := (base.num : ℚ) / (base.den : ℚ), start_time := now }

/-- `StreamClock::convert_pts_to_instant`: `pts.and_then(...)`.  `now` is the
instant at which `Instant::now()` is sampled inside the call. -/
def StreamClock.convert_pts_to_instant (c : StreamClock) (now : ℚ)
    (pts : Option Int) : RunResult (Option ℚ) :=
  match pts with
  | none => .ok none
  | some p =>
    match durationFromSecs ((p : ℚ) * c.time_base_seconds) with
    | .panicked => .panicked
    | .ok pts_since_start =>
      match instantCheckedAdd c.start_time pts_since_start with
      | none => .ok none
      | some absolute_pts => .ok (some (instantDurationSince absolute_pts now))

/-! ## Streams and `Decoder::frames` (`src/core/decode.rs`, lines 191–199) -/

/-- The per-stream data the core reads from the container layer. -/
structure StreamInfo where
  frames : Int
  duration : Int
  time_base : AvRational
deriving DecidableEq, Repr

/-- The container input: `input.stream(i)` is an optional lookup by index. -/
structure InputContext where
  streams : List StreamInfo
deriving DecidableEq, Repr

/-- `Input::stream`: stream lookup by index, `None` when absent. -/
def InputContext.stream (input : InputContext) (i : Nat) : Option StreamInfo :=
  input.streams.get? i

/-- `Decoder::frames`: `.stream(idx).ok_or(StreamNotFound)?.frames().max(0) as u64`. -/
def Decoder.framesOf (input : InputContext) (idx : Nat) : Except Error Nat :=
  match input.stream idx with
  | none => .error .StreamNotFound
  | some s => .ok (max s.frames 0).toNat

/-! ## DecoderSplit (`src/core/decode.rs`, lines 404–770)

The external codec/scaler/hardware layer is an oracle `Backend`: each kind of
backend call is a function from the number of such calls made so far to the
outcome the library returns.  Packets are modelled with their timestamp fields;
`packet.rescale_ts` (in `src/core/packet.rs`, absent from the source tree)
only rewrites timestamps before submission and no claim depends on the
rescaled values, so `send_packet_to_decoder` submits via the call-counter
oracle. -/

/-- A compressed packet: optional DTS/PTS in a rational time base. -/
structure Packet where
  dts : Option Int
  pts : Option Int
  timeBase : AvRational
deriving DecidableEq, Repr

/-- Outcome of one backend `receive_frame` call. -/
inductive ReceiveOutcome where
  | ok (frame : RawFrame)
  | err (e : AvError)
deriving DecidableEq, Repr

/-- The behaviour of the external codec / scaler / hardware layer, one
function per call kind, indexed by how many calls of that kind were made. -/
structure Backend where
  sendPacket : Nat → Option AvError
  receiveFrame : Nat → ReceiveOutcome
  sendEof : Nat → Option AvError
  hwTransfer : Nat → Option AvError
  scale : Nat → Option AvError

/-- Hardware acceleration context: the core only reads its surface pixel
format (`hwaccel_context.format()`). -/
structure HwCtx where
  format : AvPixel
deriving DecidableEq, Repr

/-- The configuration a scaler (`AvScaler::get`) was built with. -/
structure ScalerCfg where
  in_format : AvPixel
  in_width : Nat
  in_height : Nat
  out_format : AvPixel
  out_width : Nat
  out_height : Nat
deriving DecidableEq, Repr

/-- Hardware acceleration always uses the NV12 pixel format (decode.rs line 27). -/
def HWACCEL_PIXEL_FORMAT : AvPixel := .NV12

/-- Modelled from the spec: `src/core/frame.rs` is absent from the source
tree; the spec fixes RGB24 as the canonical target format of the ndarray
frame surface. -/
def FRAME_PIXEL_FORMAT : AvPixel := .RGB24

/-- Decoder parameters as read back from the codec context after
`set_parameters` (the decoder's pixel format, width and height). -/
structure CodecParams where
  format : AvPixel
  width : Nat
  height : Nat
deriving DecidableEq, Repr

/-- The stream data `DecoderSplit::new` consumes. -/
structure VideoStream where
  params : CodecParams
  time_base : AvRational
deriving DecidableEq, Repr

/-- `DecoderSplit` state.  The `n*` fields count backend calls made so far and
index the `Backend` oracle; they stand for the mutable state of the external
decoder handle. -/
structure DecoderSplit where
  decoder_time_base : AvRational
  hwaccel_context : Option HwCtx
  scaler : Option ScalerCfg
  size : Nat × Nat
  size_out : Nat × Nat
  draining : Bool
  nSend : Nat
  nRecv : Nat
  nEof : Nat
  nXfer : Nat
  nScale : Nat
deriving DecidableEq, Repr

/-- Failures that occur while opening the decoder (`set_parameters`,
`decoder().video()`, hardware context creation, `AvScaler::get`). -/
structure OpenEnv where
  setParams : Option AvError
  openVideo : Option AvError
  scalerGet : Option AvError

/-- The hardware-context arm of `DecoderSplit::new`: no device type requested
means no context; a requested device type either yields a context or fails
construction (`HardwareAccelerationContext::new(..)?`). -/
def mkHwCtx (hw : Option (Except Error HwCtx)) : Except Error (Option HwCtx) :=
  match hw with
  | none => .ok none
  | some (.error e) => .error e
  | some (.ok ctx) => .ok (some ctx)

/-- The resize arm of `DecoderSplit::new`: `resize.compute_for(in_size)
.ok_or(InvalidResizeParameters)?` or the identity. -/
def resolveResize (resize : Option ((Nat × Nat) → Option (Nat × Nat)))
    (inSize : Nat × Nat) : Except Error (Nat × Nat) :=
  match resize with
  | some f =>
      match f inSize with
      | some wh => .ok wh
      | none => .error Error.InvalidResizeParameters
  | none => .ok inSize

/-- The scaler arm of `DecoderSplit::new`: when needed, `AvScaler::get(..)`
either fails (`BackendError`) or yields the configured scaler. -/
def mkScaler (needed : Bool) (sg : Option AvError) (cfg : ScalerCfg) :
    Except Error (Option ScalerCfg) :=
  if needed then
    match sg with
    | some e => .error (.BackendError e)
    | none => .ok (some cfg)
  else
    .ok none

/-- `DecoderSplit::new` (decode.rs lines 433–516): stream lookup, decoder
setup, optional hardware context, parameter validation, resize resolution,
and conditional scaler construction.  The `?` early returns of the Rust
source are the error arms of the nested matches. -/
def DecoderSplit.new (st : Option VideoStream)
    (resize : Option ((Nat × Nat) → Option (Nat × Nat)))
    (hw : Option (Except Error HwCtx)) (env : OpenEnv) :
    Except Error DecoderSplit :=
  match st with
  | none => .error .StreamNotFound
  | some stream =>
    match env.setParams with
    | some e => .error (.BackendError e)
    | none =>
      match mkHwCtx hw with
      | .error e => .error e
      | .ok hwaccel_context =>
        match env.openVideo with
        | some e => .error (.BackendError e)
        | none =>
          if stream.params.format = AvPixel.None ∨ stream.params.width = 0 ∨
              stream.params.height = 0 then
            .error .MissingCodecParameters
          else
            match resolveResize resize (stream.params.width, stream.params.height) with
            | .error e => .error e
            | .ok rw =>
              let scaler_input_format :=
                if hwaccel_context.isSome then HWACCEL_PIXEL_FORMAT
                else stream.params.format
              let is_scaler_needed : Bool :=
                !(scaler_input_format == FRAME_PIXEL_FORMAT &&
                  stream.params.width == rw.1 && stream.params.height == rw.2)
              match mkScaler is_scaler_needed env.scalerGet
                  { in_format := scaler_input_format
                    in_width := stream.params.width
                    in_height := stream.params.height
                    out_format := FRAME_PIXEL_FORMAT
                    out_width := rw.1
                    out_height := rw.2 } with
              | .error e => .error e
              | .ok scaler =>
                  .ok
                    { decoder_time_base := stream.time_base
                      hwaccel_context := hwaccel_context
                      scaler := scaler
                      size := (stream.params.width, stream.params.height)
                      size_out := (rw.1, rw.2)
                      draining := false
                      nSend := 0, nRecv := 0, nEof := 0, nXfer := 0, nScale := 0 }

/-- `DecoderSplit::send_packet_to_decoder` (lines 603–617): rescale the packet
timestamps to the decoder time base, then `send_packet`. -/
def DecoderSplit.send_packet_to_decoder (be : Backend) (s : DecoderSplit)
    (_packet : Packet) : Except Error Unit × DecoderSplit :=
  match be.sendPacket s.nSend with
  | some e => (.error (.BackendError e), { s with nSend := s.nSend + 1 })
  | none => (.ok (), { s with nSend := s.nSend + 1 })

/-- `DecoderSplit::decoder_receive_frame` (lines 652–670): `Ok ⇒ Some(frame)`,
`Eof ⇒ ReadExhausted`, `Other{EAGAIN} ⇒ None`, anything else `⇒ BackendError`. -/
def DecoderSplit.decoder_receive_frame (be : Backend) (s : DecoderSplit) :
    Except Error (Option RawFrame) × DecoderSplit :=
  let s' := { s with nRecv := s.nRecv + 1 }
  match be.receiveFrame s.nRecv with
  | .ok frame => (.ok (some frame), s')
  | .err .Eof => (.error .ReadExhausted, s')
  | .err (.Other errno) =>
      if errno = EAGAIN then (.ok none, s')
      else (.error (.BackendError (.Other errno)), s')
  | .err e => (.error (.BackendError e), s')

/-- `DecoderSplit::download_frame` (lines 686–697): fresh frame with the NV12
format, hardware transfer, then `copy_frame_props` (PTS/DTS). -/
def downloadedFrame (frame : RawFrame) : RawFrame :=
  { format := HWACCEL_PIXEL_FORMAT
    width := frame.width
    height := frame.height
    pts := frame.pts
    pktDts := frame.pktDts }

/-- `DecoderSplit::rescale_frame` (lines 709–723): run the scaler into a fresh
frame, then `copy_frame_props`. -/
def scaledFrame (sc : ScalerCfg) (frame : RawFrame) : RawFrame :=
  { format := sc.out_format
    width := sc.out_width
    height := sc.out_height
    pts := frame.pts
    pktDts := frame.pktDts }

/-- `DecoderSplit::receive_frame_from_decoder` (lines 620–649): pull one
frame; when a hardware context is attached and its surface format matches the
frame's format, download it; when a scaler is present, rescale. -/
def DecoderSplit.receive_frame_from_decoder (be : Backend) (s : DecoderSplit) :
    Except Error (Option RawFrame) × DecoderSplit :=
  match s.decoder_receive_frame be with
  | (.error e, s') => (.error e, s')
  | (.ok none, s') => (.ok none, s')
  | (.ok (some frame), s') =>
    let step1 : Except Error RawFrame × DecoderSplit :=
      match s'.hwaccel_context with
      | some hwaccel_context =>
          if hwaccel_context.format = frame.format then
            match be.hwTransfer s'.nXfer with
            | some e => (.error (.BackendError e), { s' with nXfer := s'.nXfer + 1 })
            | none => (.ok (downloadedFrame frame), { s' with nXfer := s'.nXfer + 1 })
          else
            (.ok frame, s')
      | none => (.ok frame, s')
    match step1 with
    | (.error e, s₁) => (.error e, s₁)
    | (.ok frame, s₁) =>
      match s₁.scaler with
      | some sc =>
          match be.scale s₁.nScale with
          | some e => (.error (.BackendError e), { s₁ with nScale := s₁.nScale + 1 })
          | none => (.ok (some (scaledFrame sc frame)), { s₁ with nScale := s₁.nScale + 1 })
      | none => (.ok (some frame), s₁)

/-- `DecoderSplit::decode_raw` (lines 546–550): `assert!(!self.draining)`,
submit the packet, then `receive_frame_from_decoder`.  The failed assertion is
the `panicked` outcome. -/
def DecoderSplit.decode_raw (be : Backend) (s : DecoderSplit) (packet : Packet) :
    RunResult (Except Error (Option RawFrame) × DecoderSplit) :=
  if s.draining then .panicked
  else
    match s.send_packet_to_decoder be packet with
    | (.error e, s') => .ok (.error e, s')
    | (.ok _, s') => .ok (s'.receive_frame_from_decoder be)

/-- `DecoderSplit::drain_raw` (lines 574–580): on the first call send EOF and
set `draining` (only when the EOF submission succeeded), then
`receive_frame_from_decoder`. -/
def DecoderSplit.drain_raw (be : Backend) (s : DecoderSplit) :
    Except Error (Option RawFrame) × DecoderSplit :=
  if !s.draining then
    match be.sendEof s.nEof with
    | some e => (.error (.BackendError e), { s with nEof := s.nEof + 1 })
    | none =>
        ({ s with nEof := s.nEof + 1, draining := true } : DecoderSplit).receive_frame_from_decoder be
  else
    s.receive_frame_from_decoder be

/-- An ndarray RGB24 frame (`convert_frame_to_ndarray_rgb24` output); the core
only passes it through. -/
structure NdFrame where
  height : Nat
  width : Nat
deriving DecidableEq, Repr

/-- `DecoderSplit::raw_frame_to_time_and_frame` (lines 739–749): timestamp
from the frame's packet DTS and the decoder time base, frame converted to an
RGB24 ndarray by the external conversion (`conv`). -/
def DecoderSplit.raw_frame_to_time_and_frame
    (conv : RawFrame → Except AvError NdFrame) (s : DecoderSplit)
    (frame : RawFrame) : Except Error (Time × NdFrame) :=
  let timestamp : Time := { ts := some frame.pktDts, base := s.decoder_time_base }
  match conv frame with
  | .error e => .error (.BackendError e)
  | .ok nd => .ok (timestamp, nd)

/-- The receive loop of `impl Drop for DecoderSplit` (lines 752–766): at most
`k` calls to `decoder_receive_frame`, stopping at the first call that returns
an error.  Returns the number of receive calls made. -/
def dropDrainLoop (be : Backend) : Nat → DecoderSplit → Nat × DecoderSplit
  | 0, s => (0, s)
  | k + 1, s =>
    match s.decoder_receive_frame be with
    | (.error _, s') => (1, s')
    | (.ok _, s') =>
        let r := dropDrainLoop be k s'
        (r.1 + 1, r.2)

/-- `impl Drop for DecoderSplit`: send EOF; only if that succeeded, drain up
to `MAX_DRAIN_ITERATIONS = 100` frames.  Returns the number of
`decoder_receive_frame` calls made. -/
def DecoderSplit.dropFlush (be : Backend) (s : DecoderSplit) : Nat × DecoderSplit :=
  match be.sendEof s.nEof with
  | some _ => (0, { s with nEof := s.nEof + 1 })
  | none => dropDrainLoop be 100 { s with nEof := s.nEof + 1 }

/-! ## Operation sequences on a `DecoderSplit` (for the draining invariant) -/

/-- The public mutating operations of `DecoderSplit`. -/
inductive SplitOp where
  | decodeRaw (packet : Packet)
  | drainRaw
deriving DecidableEq, Repr

/-- Run a sequence of `decode_raw` / `drain_raw` calls; a failed assertion in
any call aborts the whole run with `panicked`. -/
def DecoderSplit.runOps (be : Backend) : List SplitOp → DecoderSplit → RunResult DecoderSplit
  | [], s => .ok s
  | op :: rest, s =>
    match op with
    | .decodeRaw p =>
        match s.decode_raw be p with
        | .panicked => .panicked
        | .ok (_, s') => DecoderSplit.runOps be rest s'
    | .drainRaw => DecoderSplit.runOps be rest (s.drain_raw be).2

/-! ## `Decoder::decode_raw` (`src/core/decode.rs`, lines 281–304)

The `loop` in `Decoder::decode_raw` is given explicit fuel; `fuelOut` marks
runs whose fuel ended before the loop chose an exit. `Reader::read`
(`src/core/io.rs`, absent from the source tree) is an oracle indexed by the
number of reads so far; per §7 of the spec it yields a packet, `ReadExhausted`
at end of input, or a backend error. -/

/-- The `Decoder` struct fields driving its decode loop: the split decoder,
the `draining` flag, and the read-call counter indexing the reader oracle. -/
structure DecoderState where
  split : DecoderSplit
  draining : Bool
  nRead : Nat
deriving DecidableEq, Repr

/-- The reader oracle: outcome of the n-th `reader.read(stream_index)` call. -/
structure ReaderOracle where
  read : Nat → Except Error Packet

/-- Result of running `Decoder::decode_raw`. -/
inductive DecodeOutcome where
  | success (frame : RawFrame) (s : DecoderState)
  | failure (e : Error) (s : DecoderState)
  | fuelOut (s : DecoderState)
  | panicked
deriving DecidableEq, Repr

/-- The error a finished `decode_raw` run returned, if any. -/
def DecodeOutcome.errOf : DecodeOutcome → Option Error
  | .failure e _ => some e
  | _ => none

/-- `Decoder::decode_raw`: read a packet unless draining (intercepting
`ReadExhausted` by setting `draining` and continuing), decode it, loop while
no frame is available; once draining, `drain_raw` until it yields `None`,
which exits with `DecodeExhausted`. -/
def Decoder.decode_raw_loop (be : Backend) (rd : ReaderOracle) :
    Nat → DecoderState → DecodeOutcome
  | 0, s => .fuelOut s
  | fuel + 1, s =>
    if s.draining then
      match s.split.drain_raw be with
      | (.ok (some frame), sp) => .success frame { s with split := sp }
      | (.ok none, sp) => .failure .DecodeExhausted { s with split := sp }
      | (.error e, sp) => .failure e { s with split := sp }
    else
      match rd.read s.nRead with
      | .error .ReadExhausted =>
          Decoder.decode_raw_loop be rd fuel
            { s with draining := true, nRead := s.nRead + 1 }
      | .error e => .failure e { s with nRead := s.nRead + 1 }
      | .ok packet =>
          match DecoderSplit.decode_raw be s.split packet with
          | .panicked => .panicked
          | .ok (.error e, sp) =>
              .failure e { s with split := sp, nRead := s.nRead + 1 }
          | .ok (.ok (some frame), sp) =>
              .success frame { s with split := sp, nRead := s.nRead + 1 }
          | .ok (.ok none, sp) =>
              Decoder.decode_raw_loop be rd fuel
                { s with split := sp, nRead := s.nRead + 1 }

/-! ## The sample ring and the audio forwarder (`src/control/audio.rs`)

The SPSC ring (`ringbuf::HeapRb`) is a capacity plus the queued elements,
oldest first.  `FFMpegToCPalSampleForwarder::forward` (lines 228–250) is the
back-pressure loop: recompute the plane length as
`samples * channels * size_of::<T>()` bytes, wait on a 16 ms timer until
`free_len()` admits the whole slice, then `push_slice`.  Consumer activity
between waits is a list `pops`: how many elements the cpal callback popped
during each 16 ms sleep. -/

/-- The SPSC sample ring. -/
structure Ring (T : Type) where
  capacity : Nat
  buf : List T
deriving DecidableEq, Repr

/-- `ringbuf::Producer::free_len`. -/
def Ring.free_len {T : Type} (r : Ring T) : Nat := r.capacity - r.buf.length

/-- `ringbuf::Producer::push_slice`: append as many items as fit, returning
how many were pushed. -/
def Ring.push_slice {T : Type} (r : Ring T) (xs : List T) : Ring T × Nat :=
  let n := min xs.length r.free_len
  ({ r with buf := r.buf ++ xs.take n }, n)

/-- `ringbuf::Consumer::pop_slice` with a destination of length `n`. -/
def Ring.pop_slice {T : Type} (r : Ring T) (n : Nat) : Ring T × List T :=
  ({ r with buf := r.buf.drop n }, r.buf.take n)

/-- A resampled audio frame: sample count, channel count, and the raw bytes of
the first data plane (whose accessor-reported length the code deliberately
ignores). -/
structure AudioFrame where
  samples : Nat
  channels : Nat
  data0 : List Nat
deriving DecidableEq, Repr

/-- `samples * channels * size_of::<T>()`, the corrected byte length. -/
def expectedBytes (σ : Nat) (f : AudioFrame) : Nat :=
  f.samples * f.channels * σ

/-- Split a byte list into consecutive `σ`-byte groups, one group per device
sample (`bytemuck::cast_slice` on an exact multiple of `σ`). -/
def castChunks {α : Type} : Nat → List α → List (List α)
  | 0, _ => []
  | _, [] => []
  | σ + 1, a :: l => ((a :: l).take (σ + 1)) :: castChunks (σ + 1) (l.drop σ)
termination_by _ l => l.length
decreasing_by
  simp only [List.length_drop, List.length_cons]
  omega

/-- The slice-building step of `forward`: index the first `expected_bytes`
bytes of plane 0 (a panic if the plane is shorter) and cast them to device
samples. -/
def castSampleData (σ : Nat) (f : AudioFrame) : RunResult (List (List Nat)) :=
  if f.data0.length < expectedBytes σ f then .panicked
  else .ok (castChunks σ (f.data0.take (expectedBytes σ f)))

/-- The wait-then-push loop of `forward`: while `free_len` is below the slice
length, sleep 16 ms (during which the consumer pops `p` elements); then push.
`none` means the supplied consumer activity never freed enough space. -/
def forwardLoop {S : Type} (data : List S) : List Nat → Ring S → Option (Ring S)
  | pops, r =>
    if r.free_len < data.length then
      match pops with
      | [] => none
      | p :: rest => forwardLoop data rest (r.pop_slice p).1
    else
      some (r.push_slice data).1

/-! ## The worker control loops (`src/control/video.rs` lines 81–122,
`src/control/audio.rs` lines 111–145)

Both workers run the same outer loop: race an `OptionFuture` — the shared
inner packet-loop future when `playing`, `None` otherwise — against
`control_receiver.recv()`.  Polling the `None` future completes immediately
without touching the inner future, so the inner task is advanced only when
`playing`.  The inner task is an arbitrary step function `task` from inner
state to next state plus the observable actions (decoder submissions,
resampler/scaler runs, frame callbacks) it performs during that poll. -/

/-- `ControlCommand` (`src/control/player.rs`). -/
inductive ControlCommand where
  | Play
  | Pause
deriving DecidableEq, Repr

/-- Observable side effects of the inner packet loop. -/
inductive WorkerAction where
  | submitPacket
  | resampleOrScaleRun
  | frameCallback
deriving DecidableEq, Repr

/-- Worker state: the `playing` flag of the outer loop and the inner future's
suspended state. -/
structure WorkerState (ι : Type) where
  playing : Bool
  inner : ι
deriving DecidableEq, Repr

/-- One resolution of the outer `select!`: either the packet branch wins, or
the control branch yields a command (`none` = channel closed). -/
inductive SelectEvent where
  | innerReady
  | control (cmd : Option ControlCommand)
deriving DecidableEq, Repr

/-- One iteration of the worker's outer loop.  Result `none` means the loop
returned (control channel closed).  When `playing` is false the packet branch
is `OptionFuture` of `None`, which resolves without polling the inner future:
no inner step, no actions. -/
def workerStep {ι : Type} (task : ι → ι × List WorkerAction)
    (s : WorkerState ι) : SelectEvent → Option (WorkerState ι) × List WorkerAction
  | .innerReady =>
      if s.playing then
        let r := task s.inner
        (some { s with inner := r.1 }, r.2)
      else
        (some s, [])
  | .control none => (none, [])
  | .control (some .Pause) => (some { s with playing := false }, [])
  | .control (some .Play) => (some { s with playing := true }, [])

/-- Run the worker's outer loop over a sequence of select resolutions,
collecting all observable inner actions. -/
def workerRun {ι : Type} (task : ι → ι × List WorkerAction) :
    WorkerState ι → List SelectEvent → Option (WorkerState ι) × List WorkerAction
  | s, [] => (some s, [])
  | s, ev :: rest =>
    match workerStep task s ev with
    | (none, acts) => (none, acts)
    | (some s', acts) =>
        let r := workerRun task s' rest
        (r.1, acts ++ r.2)

/-! ## Theorems -/

/-- C10: `Decoder::frames` returns `Err(StreamNotFound)` when the stream index
is absent, and otherwise `Ok(n)` with `n` the backend stream's frame count
clamped below at 0 before the conversion, so a negative or unknown count
yields 0 and never a wrapped value. -/
theorem frames_clamped (input : InputContext) (idx : Nat) :
    (input.stream idx = none →
      Decoder.framesOf input idx = .error .StreamNotFound) ∧
    (∀ s : StreamInfo, input.stream idx = some s →
      Decoder.framesOf input idx = .ok (max s.frames 0).toNat ∧
      (s.frames ≤ 0 → Decoder.framesOf input idx = .ok 0) ∧
      (0 ≤ s.frames → ((max s.frames 0).toNat : Int) = s.frames)) := by
  refine ⟨fun h => by simp [Decoder.framesOf, h], fun s hs => ?_⟩
  refine ⟨by simp [Decoder.framesOf, hs], fun hneg => ?_, fun hpos => ?_⟩
  · have : (max s.frames 0).toNat = 0 := by omega
    simp [Decoder.framesOf, hs, this]
  · omega

/-- Witness for `frames_clamped` on a one-stream input whose backend frame
count is negative, and on an absent index. -/
theorem frames_clamped_witness :
    Decoder.framesOf ⟨[⟨-5, 0, ⟨1, 25⟩⟩]⟩ 0 = .ok 0 ∧
    Decoder.framesOf ⟨[⟨-5, 0, ⟨1, 25⟩⟩]⟩ 1 = .error .StreamNotFound := by
  refine ⟨((frames_clamped ⟨[⟨-5, 0, ⟨1, 25⟩⟩]⟩ 0).2 ⟨-5, 0, ⟨1, 25⟩⟩ rfl).2.1
    (by decide), (frames_clamped ⟨[⟨-5, 0, ⟨1, 25⟩⟩]⟩ 1).1 rfl⟩

/-- C8: in the RGB24 surface path, the `Time` component of the returned pair
is built from the frame's packet DTS and the decoder time base; it does not
depend on the frame's PTS. -/
theorem rgb_time_uses_packet_dts (conv : RawFrame → Except AvError NdFrame)
    (s : DecoderSplit) (frame : RawFrame) (t : Time) (nd : NdFrame)
    (h : s.raw_frame_to_time_and_frame conv frame = .ok (t, nd)) :
    t = { ts := some frame.pktDts, base := s.decoder_time_base } ∧
    ∀ (frame₂ : RawFrame) (t₂ : Time) (nd₂ : NdFrame),
      frame₂.pktDts = frame.pktDts →
      s.raw_frame_to_time_and_frame conv frame₂ = .ok (t₂, nd₂) → t₂ = t := by
  have ht : t = { ts := some frame.pktDts, base := s.decoder_time_base } := by
    unfold DecoderSplit.raw_frame_to_time_and_frame at h
    cases hc : conv frame <;> simp [hc] at h
    exact h.1.symm
  refine ⟨ht, fun f₂ t₂ nd₂ hdts h₂ => ?_⟩
  unfold DecoderSplit.raw_frame_to_time_and_frame at h₂
  cases hc : conv f₂ <;> simp [hc] at h₂
  rw [ht, ← hdts]
  exact h₂.1.symm

/-- Witness for `rgb_time_uses_packet_dts`: a frame with PTS 3 and packet DTS
7 is paired with the DTS-derived timestamp. -/
theorem rgb_time_uses_packet_dts_witness :
    DecoderSplit.raw_frame_to_time_and_frame (fun _ => .ok ⟨2, 2⟩)
      ⟨⟨1, 25⟩, none, none, (2, 2), (2, 2), false, 0, 0, 0, 0, 0⟩
      ⟨.RGB24, 2, 2, some 3, 7⟩ = .ok (⟨some 7, ⟨1, 25⟩⟩, ⟨2, 2⟩) ∧
    (⟨some 7, ⟨1, 25⟩⟩ : Time) =
      { ts := some (⟨.RGB24, 2, 2, some 3, 7⟩ : RawFrame).pktDts, base := ⟨1, 25⟩ } :=
  ⟨rfl, (rgb_time_uses_packet_dts (fun _ => .ok ⟨2, 2⟩)
    ⟨⟨1, 25⟩, none, none, (2, 2), (2, 2), false, 0, 0, 0, 0, 0⟩
    ⟨.RGB24, 2, 2, some 3, 7⟩ ⟨some 7, ⟨1, 25⟩⟩ ⟨2, 2⟩ rfl).1⟩

/-- C2 counterexample: the conversion is not a total function of its input —
for the clock with `time_base_seconds = 1` and `start_time = 0`, PTS −1 makes
`Duration::from_secs_f64` receive a negative argument and panic, so no
saturated duration (nor any value at all) is returned. -/
theorem clock_negative_pts_panics :
    StreamClock.convert_pts_to_instant ⟨1, 0⟩ 0 (some (-1)) = .panicked ∧
    ¬ ∀ (c : StreamClock) (now : ℚ) (pts : Option Int),
        ∃ d : Option ℚ, c.convert_pts_to_instant now pts = .ok d := by
  have hpan : StreamClock.convert_pts_to_instant ⟨1, 0⟩ 0 (some (-1)) = .panicked := by
    have hneg : ((-1 : Int) : ℚ) * (1 : ℚ) < 0 := by norm_num
    simp only [StreamClock.convert_pts_to_instant, durationFromSecs,
      if_pos (Or.inl hneg)]
  refine ⟨hpan, fun h => ?_⟩
  obtain ⟨d, hd⟩ := h ⟨1, 0⟩ 0 (some (-1))
  rw [hpan] at hd
  exact RunResult.noConfusion hd

/-- C2 amended: `None` maps to `None`; a PTS whose product with
`time_base_seconds` is nonnegative and within `Duration`'s range maps to
`(start_time + pts·time_base) − now` saturated to zero; a PTS whose product
is negative — and likewise one whose product overflows `Duration` — makes
the conversion panic in `Duration::from_secs_f64`, so the function is not
total on i64. -/
theorem clock_conversion_amended (c : StreamClock) (now : ℚ) (p q r : Int)
    (hp0 : 0 ≤ (p : ℚ) * c.time_base_seconds)
    (hpmax : (p : ℚ) * c.time_base_seconds ≤ DURATION_MAX_SECS)
    (hq : (q : ℚ) * c.time_base_seconds < 0)
    (hr : DURATION_MAX_SECS < (r : ℚ) * c.time_base_seconds) :
    c.convert_pts_to_instant now none = .ok none ∧
    c.convert_pts_to_instant now (some p) =
      .ok (some (max 0 (c.start_time + (p : ℚ) * c.time_base_seconds - now))) ∧
    c.convert_pts_to_instant now (some q) = .panicked ∧
    c.convert_pts_to_instant now (some r) = .panicked := by
  refine ⟨rfl, ?_, ?_, ?_⟩
  · have hcond : ¬((p : ℚ) * c.time_base_seconds < 0 ∨
        DURATION_MAX_SECS < (p : ℚ) * c.time_base_seconds) := by
      push_neg
      exact ⟨hp0, hpmax⟩
    simp only [StreamClock.convert_pts_to_instant, durationFromSecs,
      if_neg hcond, instantCheckedAdd, instantDurationSince]
  · simp only [StreamClock.convert_pts_to_instant, durationFromSecs,
      if_pos (Or.inl hq)]
  · simp only [StreamClock.convert_pts_to_instant, durationFromSecs,
      if_pos (Or.inr hr)]

/-- Witness for `clock_conversion_amended` at `time_base_seconds = 3`,
`start_time = 0`, `now = 5`: PTS 2 is already late and yields the saturated
delay, PTS −1 panics on the negative product, and PTS `i64::MAX` panics on
`Duration` overflow. -/
theorem clock_conversion_amended_witness :
    StreamClock.convert_pts_to_instant ⟨3, 0⟩ 5 none = .ok none ∧
    StreamClock.convert_pts_to_instant ⟨3, 0⟩ 5 (some 2) =
      .ok (some (max 0 ((0 : ℚ) + (2 : Int) * 3 - 5))) ∧
    StreamClock.convert_pts_to_instant ⟨3, 0⟩ 5 (some (-1)) = .panicked ∧
    StreamClock.convert_pts_to_instant ⟨3, 0⟩ 5 (some (2 ^ 63 - 1)) = .panicked :=
  clock_conversion_amended ⟨3, 0⟩ 5 2 (-1) (2 ^ 63 - 1) (by norm_num)
    (by norm_num [DURATION_MAX_SECS]) (by norm_num)
    (by norm_num [DURATION_MAX_SECS])

/-- C3: the frame-retrieval step maps the backend decoder's outcome as
Ok ⇒ Some(frame), EOF ⇒ `ReadExhausted`, EAGAIN ⇒ Ok(None) (feed more
packets), any other backend error ⇒ `BackendError(inner)`; and after a
successful packet submission `decode_raw` surfaces exactly this mapping. -/
theorem receive_frame_outcome_mapping (be : Backend) (s : DecoderSplit)
    (frame : RawFrame) (errno : Int) (k : Nat) (p : Packet) :
    (be.receiveFrame s.nRecv = .ok frame →
      s.decoder_receive_frame be =
        (.ok (some frame), { s with nRecv := s.nRecv + 1 })) ∧
    (be.receiveFrame s.nRecv = .err .Eof →
      s.decoder_receive_frame be =
        (.error .ReadExhausted, { s with nRecv := s.nRecv + 1 })) ∧
    (be.receiveFrame s.nRecv = .err (.Other EAGAIN) →
      s.decoder_receive_frame be = (.ok none, { s with nRecv := s.nRecv + 1 })) ∧
    (be.receiveFrame s.nRecv = .err (.Other errno) → errno ≠ EAGAIN →
      s.decoder_receive_frame be =
        (.error (.BackendError (.Other errno)), { s with nRecv := s.nRecv + 1 })) ∧
    (be.receiveFrame s.nRecv = .err (.otherKind k) →
      s.decoder_receive_frame be =
        (.error (.BackendError (.otherKind k)), { s with nRecv := s.nRecv + 1 })) ∧
    (s.draining = false → be.sendPacket s.nSend = none →
      (be.receiveFrame s.nRecv = .err .Eof →
        s.decode_raw be p = .ok (.error .ReadExhausted,
          { s with nSend := s.nSend + 1, nRecv := s.nRecv + 1 })) ∧
      (be.receiveFrame s.nRecv = .err (.Other EAGAIN) →
        s.decode_raw be p = .ok (.ok none,
          { s with nSend := s.nSend + 1, nRecv := s.nRecv + 1 })) ∧
      (be.receiveFrame s.nRecv = .err (.otherKind k) →
        s.decode_raw be p = .ok (.error (.BackendError (.otherKind k)),
          { s with nSend := s.nSend + 1, nRecv := s.nRecv + 1 })) ∧
      (be.receiveFrame s.nRecv = .ok frame → s.hwaccel_context = none →
        s.scaler = none →
        s.decode_raw be p = .ok (.ok (some frame),
          { s with nSend := s.nSend + 1, nRecv := s.nRecv + 1 }))) := by
  refine ⟨fun h => ?_, fun h => ?_, fun h => ?_, fun h hne => ?_, fun h => ?_,
    fun hd hs => ⟨fun h => ?_, fun h => ?_, fun h => ?_, fun h hhw hsc => ?_⟩⟩
  · simp [DecoderSplit.decoder_receive_frame, h]
  · simp [DecoderSplit.decoder_receive_frame, h]
  · simp [DecoderSplit.decoder_receive_frame, h, EAGAIN]
  · simp [DecoderSplit.decoder_receive_frame, h, hne]
  · simp [DecoderSplit.decoder_receive_frame, h]
  · simp [DecoderSplit.decode_raw, hd, DecoderSplit.send_packet_to_decoder, hs,
      DecoderSplit.receive_frame_from_decoder, DecoderSplit.decoder_receive_frame, h]
  · simp [DecoderSplit.decode_raw, hd, DecoderSplit.send_packet_to_decoder, hs,
      DecoderSplit.receive_frame_from_decoder, DecoderSplit.decoder_receive_frame, h,
      EAGAIN]
  · simp [DecoderSplit.decode_raw, hd, DecoderSplit.send_packet_to_decoder, hs,
      DecoderSplit.receive_frame_from_decoder, DecoderSplit.decoder_receive_frame, h]
  · simp [DecoderSplit.decode_raw, hd, DecoderSplit.send_packet_to_decoder, hs,
      DecoderSplit.receive_frame_from_decoder, DecoderSplit.decoder_receive_frame, h,
      hhw, hsc]

/-- Witness for `receive_frame_outcome_mapping`: a backend that reports EOF on
its first receive call makes `decode_raw` return `ReadExhausted` after a
successful submission. -/
theorem receive_frame_outcome_mapping_witness :
    DecoderSplit.decode_raw
      ⟨fun _ => none, fun _ => .err .Eof, fun _ => none, fun _ => none, fun _ => none⟩
      ⟨⟨1, 25⟩, none, none, (2, 2), (2, 2), false, 0, 0, 0, 0, 0⟩ ⟨none, none, ⟨1, 25⟩⟩ =
      .ok (.error .ReadExhausted,
        ⟨⟨1, 25⟩, none, none, (2, 2), (2, 2), false, 1, 1, 0, 0, 0⟩) :=
  ((receive_frame_outcome_mapping
    ⟨fun _ => none, fun _ => .err .Eof, fun _ => none, fun _ => none, fun _ => none⟩
    ⟨⟨1, 25⟩, none, none, (2, 2), (2, 2), false, 0, 0, 0, 0, 0⟩
    ⟨.RGB24, 2, 2, none, 0⟩ 0 0 ⟨none, none, ⟨1, 25⟩⟩).2.2.2.2.2 rfl rfl).1 rfl

/-- Whether the n-th backend receive outcome makes `decoder_receive_frame`
return an error (EAGAIN is recovered as `Ok(None)`, so it does not stop the
drop-time drain loop). -/
def recvIsErr (be : Backend) (n : Nat) : Bool :=
  match be.receiveFrame n with
  | .ok _ => false
  | .err (.Other errno) => !(errno == EAGAIN)
  | .err _ => true

/-- When the backend outcome is an error for `decoder_receive_frame`, the call
returns some error and bumps the receive counter. -/
theorem decoder_receive_frame_err (be : Backend) (s : DecoderSplit)
    (h : recvIsErr be s.nRecv = true) :
    ∃ e, s.decoder_receive_frame be = (.error e, { s with nRecv := s.nRecv + 1 }) := by
  unfold recvIsErr at h
  unfold DecoderSplit.decoder_receive_frame
  cases hr : be.receiveFrame s.nRecv with
  | ok f => simp [hr] at h
  | err e =>
      cases e with
      | Eof => exact ⟨Error.ReadExhausted, by simp [hr]⟩
      | Other errno =>
          simp [hr] at h
          exact ⟨Error.BackendError (.Other errno), by simp [hr, h]⟩
      | otherKind k => exact ⟨Error.BackendError (.otherKind k), by simp [hr]⟩

/-- When the backend outcome is not an error for `decoder_receive_frame`, the
call returns `Ok` and bumps the receive counter. -/
theorem decoder_receive_frame_ok (be : Backend) (s : DecoderSplit)
    (h : recvIsErr be s.nRecv = false) :
    ∃ o, s.decoder_receive_frame be = (.ok o, { s with nRecv := s.nRecv + 1 }) := by
  unfold recvIsErr at h
  unfold DecoderSplit.decoder_receive_frame
  cases hr : be.receiveFrame s.nRecv with
  | ok f => exact ⟨some f, by simp [hr]⟩
  | err e =>
      cases e with
      | Eof => simp [hr] at h
      | Other errno =>
          simp [hr] at h
          exact ⟨none, by simp [hr, h]⟩
      | otherKind k => simp [hr] at h

/-- The drop-time drain loop makes at most `k` receive calls. -/
theorem dropDrainLoop_le (be : Backend) :
    ∀ (k : Nat) (s : DecoderSplit), (dropDrainLoop be k s).1 ≤ k := by
  intro k
  induction k with
  | zero => intro s; simp [dropDrainLoop]
  | succ k ih =>
      intro s
      unfold dropDrainLoop
      cases hr : s.decoder_receive_frame be with
      | mk res s' =>
          cases res with
          | error e => simp
          | ok o => simpa using Nat.succ_le_succ (ih s')

/-- The drop-time drain loop stops at the first erroring receive call: if the
`j`-th receive (zero-based) errors and all earlier ones succeed, exactly
`j + 1` receive calls are made. -/
theorem dropDrainLoop_first_err (be : Backend) :
    ∀ (k : Nat) (s : DecoderSplit) (j : Nat), j < k →
      recvIsErr be (s.nRecv + j) = true →
      (∀ i, i < j → recvIsErr be (s.nRecv + i) = false) →
      (dropDrainLoop be k s).1 = j + 1 := by
  intro k
  induction k with
  | zero => intro s j hj; omega
  | succ k ih =>
      intro s j hj he hb
      unfold dropDrainLoop
      cases j with
      | zero =>
          obtain ⟨e, hr⟩ := decoder_receive_frame_err be s (by simpa using he)
          simp [hr]
      | succ j' =>
          obtain ⟨o, hr⟩ := decoder_receive_frame_ok be s
            (by simpa using hb 0 (Nat.succ_pos j'))
          have ih' := ih { s with nRecv := s.nRecv + 1 } j'
            (Nat.lt_of_succ_lt_succ hj)
            (by simpa [Nat.add_assoc, Nat.add_comm 1 j'] using he)
            (fun i hi => by
              simpa [Nat.add_assoc, Nat.add_comm 1 i] using hb (i + 1)
                (Nat.succ_lt_succ hi))
          simp [hr, ih']

/-- C9: dropping a `DecoderSplit` sends EOF and then, only if the EOF send
succeeded, makes at most 100 frame-retrieval attempts, stopping at the first
attempt that returns an error — so the drop always performs a bounded number
of backend calls. -/
theorem drop_flush_bounded (be : Backend) (s : DecoderSplit) (e : AvError) (j : Nat) :
    (s.dropFlush be).1 ≤ 100 ∧
    (be.sendEof s.nEof = some e → (s.dropFlush be).1 = 0) ∧
    (be.sendEof s.nEof = none → j < 100 →
      recvIsErr be (s.nRecv + j) = true →
      (∀ i, i < j → recvIsErr be (s.nRecv + i) = false) →
      (s.dropFlush be).1 = j + 1) := by
  unfold DecoderSplit.dropFlush
  cases hs : be.sendEof s.nEof with
  | some e' => exact ⟨by simp, fun _ => by simp, fun h => by simp at h⟩
  | none =>
      refine ⟨by simpa using dropDrainLoop_le be 100 { s with nEof := s.nEof + 1 },
        fun h => by simp at h, fun _ hj he hb => ?_⟩
      simpa using dropDrainLoop_first_err be 100 { s with nEof := s.nEof + 1 } j hj he hb

/-- Witness for `drop_flush_bounded`: a backend whose third receive call
reports EOF makes the drop perform exactly three receive calls. -/
theorem drop_flush_bounded_witness :
    (DecoderSplit.dropFlush
      ⟨fun _ => none, fun n => if n == 2 then .err .Eof else .ok ⟨.RGB24, 2, 2, none, 0⟩,
        fun _ => none, fun _ => none, fun _ => none⟩
      ⟨⟨1, 25⟩, none, none, (2, 2), (2, 2), true, 0, 0, 0, 0, 0⟩).1 = 3 :=
  (drop_flush_bounded
    ⟨fun _ => none, fun n => if n == 2 then .err .Eof else .ok ⟨.RGB24, 2, 2, none, 0⟩,
      fun _ => none, fun _ => none, fun _ => none⟩
    ⟨⟨1, 25⟩, none, none, (2, 2), (2, 2), true, 0, 0, 0, 0, 0⟩
    .Eof 2).2.2 rfl (by decide) (by decide) (by decide)

/-- A byte list of length `n * σ` casts to exactly `n` device samples. -/
theorem castChunks_length {α : Type} (σ : Nat) (hσ : 0 < σ) :
    ∀ (n : Nat) (l : List α), l.length = n * σ → (castChunks σ l).length = n := by
  intro n
  induction n with
  | zero =>
      intro l hl
      have hnil : l = [] := List.eq_nil_of_length_eq_zero (by simpa using hl)
      subst hnil
      obtain ⟨m, rfl⟩ := Nat.exists_eq_succ_of_ne_zero (Nat.pos_iff_ne_zero.mp hσ)
      simp [castChunks]
  | succ n ih =>
      intro l hl
      obtain ⟨m, rfl⟩ := Nat.exists_eq_succ_of_ne_zero (Nat.pos_iff_ne_zero.mp hσ)
      cases l with
      | nil => simp at hl
      | cons a l' =>
          rw [castChunks]
          simp only [List.length_cons]
          rw [ih (l'.drop m) (by
            simp only [List.length_drop]
            simp only [List.length_cons, Nat.succ_mul] at hl
            omega)]

/-- Once the wait-then-push loop of `forward` completes, the whole sample
slice sits at the end of the ring: nothing was dropped. -/
theorem forwardLoop_pushes_all {S : Type} (data : List S) :
    ∀ (pops : List Nat) (r r' : Ring S), forwardLoop data pops r = some r' →
      ∃ pre, r'.buf = pre ++ data := by
  intro pops
  induction pops with
  | nil =>
      intro r r' h
      unfold forwardLoop at h
      by_cases hfree : r.free_len < data.length
      · simp [hfree] at h
      · rw [if_neg hfree] at h
        injection h with h
        refine ⟨r.buf, ?_⟩
        rw [← h]
        simp [Ring.push_slice, Nat.min_eq_left (Nat.le_of_not_lt hfree)]
  | cons p rest ih =>
      intro r r' h
      unfold forwardLoop at h
      by_cases hfree : r.free_len < data.length
      · rw [if_pos hfree] at h
        exact ih _ _ h
      · rw [if_neg hfree] at h
        injection h with h
        refine ⟨r.buf, ?_⟩
        rw [← h]
        simp [Ring.push_slice, Nat.min_eq_left (Nat.le_of_not_lt hfree)]

/-- C7: `forward` casts the first data plane to exactly
`samples × channels` device samples (`samples × channels × sizeof(T)` bytes,
ignoring the plane accessor's own length), and the back-pressure loop pushes
only once `free_len` admits the whole slice — so whenever it completes, every
sample of the resampled frame was pushed into the ring and none was dropped. -/
theorem forward_pushes_every_sample (σ : Nat) (f : AudioFrame)
    (elems : List (List Nat)) (pops : List Nat) (r r' : Ring (List Nat))
    (hσ : 0 < σ) (hcast : castSampleData σ f = .ok elems)
    (hrun : forwardLoop elems pops r = some r') :
    elems.length = f.samples * f.channels ∧ ∃ pre, r'.buf = pre ++ elems := by
  constructor
  · unfold castSampleData at hcast
    by_cases hlen : f.data0.length < expectedBytes σ f
    · simp [hlen] at hcast
    · rw [if_neg hlen] at hcast
      injection hcast with h
      rw [← h]
      refine castChunks_length σ hσ (f.samples * f.channels)
        (f.data0.take (expectedBytes σ f)) ?_
      rw [List.length_take, Nat.min_eq_left (Nat.le_of_not_lt hlen)]
      rfl
  · exact forwardLoop_pushes_all elems pops r r' hrun

/-- Witness for `forward_pushes_every_sample`: a stereo frame of one sample,
one byte per sample, pushed into a ring with just enough space after one
consumer pop. -/
theorem forward_pushes_every_sample_witness :
    ([[7], [8]] : List (List Nat)).length = 1 * 2 ∧
    ∃ pre, (⟨2, [[7], [8]]⟩ : Ring (List Nat)).buf = pre ++ [[7], [8]] :=
  forward_pushes_every_sample 1 ⟨1, 2, [7, 8]⟩ [[7], [8]] [2] ⟨2, [[5], [6]]⟩
    ⟨2, [[7], [8]]⟩ (by decide)
    (by simp [castSampleData, expectedBytes, castChunks]) rfl

/-- C6: observing Pause clears `playing` without performing any action, and
while `playing` is false and no Play command arrives, the outer loop never
polls the inner packet-loop future — so no decoder submission, no
resampler/scaler run and no frame callback occurs, whatever the inner task
would do when polled. -/
theorem pause_quiescence {ι : Type} (task : ι → ι × List WorkerAction)
    (s : WorkerState ι) (evs : List SelectEvent) :
    (workerStep task s (.control (some .Pause)) =
      (some { s with playing := false }, [])) ∧
    (s.playing = false → (∀ ev ∈ evs, ev ≠ .control (some .Play)) →
      (workerRun task s evs).2 = [] ∧
      ∀ s', (workerRun task s evs).1 = some s' → s'.playing = false) := by
  constructor
  · rfl
  · induction evs generalizing s with
    | nil =>
        intro hp _
        refine ⟨rfl, fun s' h => ?_⟩
        simp only [workerRun] at h
        injection h with h
        rw [← h]
        exact hp
    | cons ev rest ih =>
        intro hp hnoplay
        have hev := hnoplay ev (List.mem_cons_self ev rest)
        have hrest : ∀ e ∈ rest, e ≠ SelectEvent.control (some ControlCommand.Play) :=
          fun e he => hnoplay e (List.mem_cons_of_mem ev he)
        cases ev with
        | innerReady =>
            have hstep : workerStep task s .innerReady = (some s, []) := by
              simp [workerStep, hp]
            obtain ⟨h1, h2⟩ := ih s hp hrest
            simp only [workerRun, hstep]
            exact ⟨by simpa using h1, by simpa using h2⟩
        | control cmd =>
            cases cmd with
            | none => simp [workerRun, workerStep]
            | some c =>
                cases c with
                | Play => exact absurd rfl hev
                | Pause =>
                    have hstep : workerStep task s (.control (some .Pause)) =
                        (some { s with playing := false }, []) := rfl
                    obtain ⟨h1, h2⟩ := ih { s with playing := false } rfl hrest
                    simp only [workerRun, hstep]
                    exact ⟨by simpa using h1, by simpa using h2⟩

/-- Witness for `pause_quiescence`: a paused worker whose inner task would
submit a packet on every poll emits no action across an inner-ready
resolution, a redundant Pause, and another inner-ready resolution. -/
theorem pause_quiescence_witness :
    (workerRun (fun n : Nat => (n + 1, [WorkerAction.submitPacket])) ⟨false, 0⟩
      [.innerReady, .control (some .Pause), .innerReady]).2 = [] :=
  ((pause_quiescence (fun n : Nat => (n + 1, [WorkerAction.submitPacket]))
    ⟨false, 0⟩ [.innerReady, .control (some .Pause), .innerReady]).2
    rfl (by decide)).1

/-- A scaler comes out of `mkScaler` exactly when one was needed. -/
theorem mkScaler_isSome (needed : Bool) (sg : Option AvError) (cfg : ScalerCfg)
    (sc : Option ScalerCfg) (h : mkScaler needed sg cfg = .ok sc) :
    sc.isSome = needed := by
  unfold mkScaler at h
  cases needed with
  | false =>
      simp only [Bool.false_eq_true, if_false, Except.ok.injEq] at h
      simp [← h]
  | true =>
      cases sg with
      | some e => simp at h
      | none =>
          simp only [if_true, Except.ok.injEq] at h
          simp [← h]

/-- Characterization of a successfully constructed `DecoderSplit`: draining
starts false, sizes and time base come from the stream, the hardware context
is the one the platform layer produced, the output size is the resolved
resize, and a scaler is present exactly when the scaler input format is not
the canonical target or the dimensions change. -/
theorem new_ok_spec (stream : VideoStream)
    (resize : Option ((Nat × Nat) → Option (Nat × Nat)))
    (hw : Option (Except Error HwCtx)) (env : OpenEnv) (ds : DecoderSplit)
    (h : DecoderSplit.new (some stream) resize hw env = .ok ds) :
    ds.draining = false ∧
    ds.size = (stream.params.width, stream.params.height) ∧
    ds.decoder_time_base = stream.time_base ∧
    mkHwCtx hw = .ok ds.hwaccel_context ∧
    resolveResize resize (stream.params.width, stream.params.height) =
      .ok ds.size_out ∧
    (ds.scaler.isSome ↔
      ¬((if ds.hwaccel_context.isSome then HWACCEL_PIXEL_FORMAT
          else stream.params.format) = FRAME_PIXEL_FORMAT ∧
        stream.params.width = ds.size_out.1 ∧
        stream.params.height = ds.size_out.2)) := by
  unfold DecoderSplit.new at h
  cases hsp : env.setParams with
  | some e => rw [hsp] at h; exact Except.noConfusion h
  | none =>
  rw [hsp] at h
  cases hhw : mkHwCtx hw with
  | error e => rw [hhw] at h; exact Except.noConfusion h
  | ok hwctx =>
  rw [hhw] at h
  cases hov : env.openVideo with
  | some e => rw [hov] at h; exact Except.noConfusion h
  | none =>
  rw [hov] at h
  dsimp only at h
  by_cases hval : stream.params.format = AvPixel.None ∨
      stream.params.width = 0 ∨ stream.params.height = 0
  · rw [if_pos hval] at h; exact Except.noConfusion h
  · rw [if_neg hval] at h
    cases hrz : resolveResize resize (stream.params.width, stream.params.height) with
    | error e => rw [hrz] at h; exact Except.noConfusion h
    | ok rwp =>
    rw [hrz] at h
    dsimp only at h
    cases hms : mkScaler
        (!((if hwctx.isSome then HWACCEL_PIXEL_FORMAT else stream.params.format) ==
            FRAME_PIXEL_FORMAT &&
          stream.params.width == rwp.1 && stream.params.height == rwp.2))
        env.scalerGet
        { in_format := if hwctx.isSome then HWACCEL_PIXEL_FORMAT
            else stream.params.format
          in_width := stream.params.width
          in_height := stream.params.height
          out_format := FRAME_PIXEL_FORMAT
          out_width := rwp.1
          out_height := rwp.2 } with
    | error e => rw [hms] at h; exact Except.noConfusion h
    | ok sc =>
    rw [hms] at h
    injection h with h
    subst h
    refine ⟨rfl, rfl, rfl, rfl, by simp [hrz], ?_⟩
    have hsome := mkScaler_isSome _ _ _ _ hms
    simp only [hsome]
    simp [Bool.and_eq_true, not_and_or]
    tauto

/-- C4: for every successfully constructed `DecoderSplit`, a scaler is
present iff NOT (the scaler input format — the decoder's format, or NV12 when
hardware acceleration is attached — equals the canonical target pixel format
AND the decoder's dimensions equal the resolved output dimensions). -/
theorem scaler_present_iff (stream : VideoStream)
    (resize : Option ((Nat × Nat) → Option (Nat × Nat)))
    (hw : Option (Except Error HwCtx)) (env : OpenEnv) (ds : DecoderSplit)
    (h : DecoderSplit.new (some stream) resize hw env = .ok ds) :
    ds.size = (stream.params.width, stream.params.height) ∧
    (ds.scaler.isSome ↔
      ¬((if ds.hwaccel_context.isSome then HWACCEL_PIXEL_FORMAT
          else stream.params.format) = FRAME_PIXEL_FORMAT ∧
        stream.params.width = ds.size_out.1 ∧
        stream.params.height = ds.size_out.2)) :=
  ⟨(new_ok_spec stream resize hw env ds h).2.1,
   (new_ok_spec stream resize hw env ds h).2.2.2.2.2⟩

/-- Witness for `scaler_present_iff`: an RGB24 10×10 stream downscaled to
5×5 gets a scaler (dimensions change although the format already matches). -/
theorem scaler_present_iff_witness :
    (⟨⟨1, 25⟩, none, some ⟨.RGB24, 10, 10, .RGB24, 5, 5⟩, (10, 10), (5, 5),
      false, 0, 0, 0, 0, 0⟩ : DecoderSplit).scaler.isSome = true :=
  ((scaler_present_iff ⟨⟨.RGB24, 10, 10⟩, ⟨1, 25⟩⟩ (some fun _ => some (5, 5))
    none ⟨none, none, none⟩
    ⟨⟨1, 25⟩, none, some ⟨.RGB24, 10, 10, .RGB24, 5, 5⟩, (10, 10), (5, 5),
      false, 0, 0, 0, 0, 0⟩ rfl).2).mpr (by decide)

/-- `decoder_receive_frame` only bumps the receive counter. -/
theorem decoder_receive_frame_state (be : Backend) (s : DecoderSplit) :
    (s.decoder_receive_frame be).2 = { s with nRecv := s.nRecv + 1 } := by
  unfold DecoderSplit.decoder_receive_frame
  cases be.receiveFrame s.nRecv with
  | ok f => rfl
  | err e =>
      cases e with
      | Eof => rfl
      | Other errno => by_cases h : errno = EAGAIN <;> simp [h]
      | otherKind k => rfl

/-- `receive_frame_from_decoder` never changes the `draining` flag (it only
bumps the receive / transfer / scale counters). -/
theorem receive_frame_from_decoder_draining (be : Backend) (s : DecoderSplit) :
    ((s.receive_frame_from_decoder be).2).draining = s.draining := by
  unfold DecoderSplit.receive_frame_from_decoder
  rcases hres : s.decoder_receive_frame be with ⟨res, s'⟩
  have hs' : s'.draining = s.draining := by
    have hst := decoder_receive_frame_state be s
    rw [hres] at hst
    rw [show s' = { s with nRecv := s.nRecv + 1 } from hst]
  cases res with
  | error e => exact hs'
  | ok o =>
      cases o with
      | none => exact hs'
      | some frame =>
          dsimp only
          cases hhw : s'.hwaccel_context with
          | none =>
              cases hsc : s'.scaler with
              | none => simpa [hhw, hsc] using hs'
              | some sc =>
                  cases hr : be.scale s'.nScale <;> simpa [hhw, hsc, hr] using hs'
          | some hwc =>
              by_cases hfmt : hwc.format = frame.format
              · cases hx : be.hwTransfer s'.nXfer with
                | some e => simpa [hhw, hfmt, hx] using hs'
                | none =>
                    cases hsc : s'.scaler with
                    | none => simpa [hhw, hfmt, hx, hsc] using hs'
                    | some sc =>
                        cases hr : be.scale s'.nScale <;>
                          simpa [hhw, hfmt, hx, hsc, hr] using hs'
              · cases hsc : s'.scaler with
                | none => simpa [hhw, hfmt, hsc] using hs'
                | some sc =>
                    cases hr : be.scale s'.nScale <;>
                      simpa [hhw, hfmt, hsc, hr] using hs'

/-- `send_packet_to_decoder` only bumps the send counter. -/
theorem send_packet_state (be : Backend) (s : DecoderSplit) (p : Packet) :
    (s.send_packet_to_decoder be p).2 = { s with nSend := s.nSend + 1 } := by
  unfold DecoderSplit.send_packet_to_decoder
  cases be.sendPacket s.nSend <;> rfl

/-- With `draining` false, `decode_raw` does not panic and leaves `draining`
false. -/
theorem decode_raw_not_draining (be : Backend) (s : DecoderSplit) (p : Packet)
    (h : s.draining = false) :
    ∃ res s', s.decode_raw be p = .ok (res, s') ∧ s'.draining = false := by
  unfold DecoderSplit.decode_raw
  rw [h]
  simp only [Bool.false_eq_true, if_false]
  rcases hsp : s.send_packet_to_decoder be p with ⟨res0, s₁⟩
  have hs₁ : s₁ = { s with nSend := s.nSend + 1 } := by
    have hst := send_packet_state be s p
    rw [hsp] at hst
    exact hst
  cases res0 with
  | error e =>
      refine ⟨.error e, s₁, by simp, ?_⟩
      rw [hs₁]
      exact h
  | ok u =>
      refine ⟨(s₁.receive_frame_from_decoder be).1,
        (s₁.receive_frame_from_decoder be).2, by simp, ?_⟩
      rw [receive_frame_from_decoder_draining, hs₁]
      exact h

/-- `drain_raw` leaves `draining` true once it is true, and sets it on the
first call when the EOF submission succeeds. -/
theorem drain_raw_draining (be : Backend) (s : DecoderSplit) :
    (s.draining = true → ((s.drain_raw be).2).draining = true) ∧
    (s.draining = false → be.sendEof s.nEof = none →
      ((s.drain_raw be).2).draining = true) := by
  constructor
  · intro h
    unfold DecoderSplit.drain_raw
    rw [h]
    simp only [Bool.not_true, Bool.false_eq_true, if_false]
    rw [receive_frame_from_decoder_draining]
    exact h
  · intro h he
    unfold DecoderSplit.drain_raw
    rw [h, he]
    simp only [Bool.not_false, if_true]
    rw [receive_frame_from_decoder_draining]

/-- Once draining, a successful run of further operations keeps the flag. -/
theorem runOps_draining_mono (be : Backend) :
    ∀ (ops : List SplitOp) (s s' : DecoderSplit), s.draining = true →
      DecoderSplit.runOps be ops s = .ok s' → s'.draining = true := by
  intro ops
  induction ops with
  | nil =>
      intro s s' h hr
      unfold DecoderSplit.runOps at hr
      injection hr with hr
      rw [← hr]
      exact h
  | cons op rest ih =>
      intro s s' h hr
      unfold DecoderSplit.runOps at hr
      cases op with
      | decodeRaw p =>
          dsimp only at hr
          have hpan : s.decode_raw be p = .panicked := by
            unfold DecoderSplit.decode_raw
            rw [h]
            simp
          rw [hpan] at hr
          exact RunResult.noConfusion hr
      | drainRaw => exact ih _ _ ((drain_raw_draining be s).1 h) hr

/-- A sequence of operations containing no `drain_raw` never trips the
`decode_raw` assertion, starting from a non-draining decoder. -/
theorem runOps_no_drain_no_panic (be : Backend) :
    ∀ (ops : List SplitOp) (s : DecoderSplit), s.draining = false →
      (∀ op ∈ ops, op ≠ .drainRaw) →
      ∃ s', DecoderSplit.runOps be ops s = .ok s' ∧ s'.draining = false := by
  intro ops
  induction ops with
  | nil => intro s h _; exact ⟨s, rfl, h⟩
  | cons op rest ih =>
      intro s h hops
      cases op with
      | drainRaw => exact absurd rfl (hops _ (List.mem_cons_self _ _))
      | decodeRaw p =>
          obtain ⟨res, s₁, hdec, hs₁⟩ := decode_raw_not_draining be s p h
          obtain ⟨s', hrun, hs'⟩ := ih s₁ hs₁
            (fun op hop => hops op (List.mem_cons_of_mem _ hop))
          refine ⟨s', ?_, hs'⟩
          unfold DecoderSplit.runOps
          dsimp only
          rw [hdec]
          exact hrun

/-- C5 counterexample: when the backend rejects the EOF submission, the first
`drain_raw` call returns the backend error and does NOT set `draining` — the
claim's "the first call to drain_raw sends EOF and sets draining to true" is
unconditional and therefore false. -/
theorem drain_raw_eof_failure_counterexample :
    DecoderSplit.drain_raw
      ⟨fun _ => none, fun _ => .ok ⟨.RGB24, 2, 2, none, 0⟩,
        fun _ => some (.otherKind 3), fun _ => none, fun _ => none⟩
      ⟨⟨1, 25⟩, none, none, (2, 2), (2, 2), false, 0, 0, 0, 0, 0⟩ =
      (.error (.BackendError (.otherKind 3)),
        ⟨⟨1, 25⟩, none, none, (2, 2), (2, 2), false, 0, 0, 1, 0, 0⟩) := rfl

/-- C5 amended: `draining` starts false after construction; the first
`drain_raw` call sets it — provided the EOF submission succeeded (a rejected
EOF leaves the flag unchanged); the flag never reverts to false; and a
decoder on which `drain_raw` has never been called never trips the
`decode_raw` assertion. -/
theorem draining_protocol (stream : VideoStream)
    (resize : Option ((Nat × Nat) → Option (Nat × Nat)))
    (hw : Option (Except Error HwCtx)) (env : OpenEnv)
    (be : Backend) (ds s s' : DecoderSplit) (ops : List SplitOp) :
    (DecoderSplit.new (some stream) resize hw env = .ok ds →
      ds.draining = false) ∧
    (s.draining = false → be.sendEof s.nEof = none →
      ((s.drain_raw be).2).draining = true) ∧
    (s.draining = true → ((s.drain_raw be).2).draining = true) ∧
    (s.draining = true → DecoderSplit.runOps be ops s = .ok s' →
      s'.draining = true) ∧
    (s.draining = false → (∀ op ∈ ops, op ≠ .drainRaw) →
      DecoderSplit.runOps be ops s ≠ .panicked) := by
  refine ⟨fun h => (new_ok_spec stream resize hw env ds h).1,
    fun h he => (drain_raw_draining be s).2 h he,
    fun h => (drain_raw_draining be s).1 h,
    fun h hr => runOps_draining_mono be ops s s' h hr,
    fun h hops hpan => ?_⟩
  obtain ⟨s'', hrun, _⟩ := runOps_no_drain_no_panic be ops s h hops
  rw [hrun] at hpan
  exact RunResult.noConfusion hpan

/-- Witness for `draining_protocol`: a freshly built decoder has
`draining = false`, a first `drain_raw` whose EOF submission succeeds sets it,
and a drain-free run of two decodes does not panic. -/
theorem draining_protocol_witness :
    DecoderSplit.new (some ⟨⟨.RGB24, 2, 2⟩, ⟨1, 25⟩⟩) none none ⟨none, none, none⟩ =
      .ok ⟨⟨1, 25⟩, none, none, (2, 2), (2, 2), false, 0, 0, 0, 0, 0⟩ ∧
    ((⟨⟨1, 25⟩, none, none, (2, 2), (2, 2), false, 0, 0, 0, 0, 0⟩ : DecoderSplit).draining
      = false) ∧
    ((DecoderSplit.drain_raw
        ⟨fun _ => none, fun _ => .err (.Other EAGAIN), fun _ => none, fun _ => none,
          fun _ => none⟩
        ⟨⟨1, 25⟩, none, none, (2, 2), (2, 2), false, 0, 0, 0, 0, 0⟩).2).draining = true ∧
    DecoderSplit.runOps
        ⟨fun _ => none, fun _ => .err (.Other EAGAIN), fun _ => none, fun _ => none,
          fun _ => none⟩
        [.decodeRaw ⟨none, none, ⟨1, 25⟩⟩, .decodeRaw ⟨none, none, ⟨1, 25⟩⟩]
        ⟨⟨1, 25⟩, none, none, (2, 2), (2, 2), false, 0, 0, 0, 0, 0⟩ ≠ .panicked := by
  refine ⟨rfl, ?_, ?_, ?_⟩
  · exact (draining_protocol ⟨⟨.RGB24, 2, 2⟩, ⟨1, 25⟩⟩ none none ⟨none, none, none⟩
      ⟨fun _ => none, fun _ => .err (.Other EAGAIN), fun _ => none, fun _ => none,
        fun _ => none⟩
      ⟨⟨1, 25⟩, none, none, (2, 2), (2, 2), false, 0, 0, 0, 0, 0⟩
      ⟨⟨1, 25⟩, none, none, (2, 2), (2, 2), false, 0, 0, 0, 0, 0⟩
      ⟨⟨1, 25⟩, none, none, (2, 2), (2, 2), false, 0, 0, 0, 0, 0⟩ []).1 rfl
  · exact (draining_protocol ⟨⟨.RGB24, 2, 2⟩, ⟨1, 25⟩⟩ none none ⟨none, none, none⟩
      ⟨fun _ => none, fun _ => .err (.Other EAGAIN), fun _ => none, fun _ => none,
        fun _ => none⟩
      ⟨⟨1, 25⟩, none, none, (2, 2), (2, 2), false, 0, 0, 0, 0, 0⟩
      ⟨⟨1, 25⟩, none, none, (2, 2), (2, 2), false, 0, 0, 0, 0, 0⟩
      ⟨⟨1, 25⟩, none, none, (2, 2), (2, 2), false, 0, 0, 0, 0, 0⟩ []).2.1 rfl rfl
  · exact (draining_protocol ⟨⟨.RGB24, 2, 2⟩, ⟨1, 25⟩⟩ none none ⟨none, none, none⟩
      ⟨fun _ => none, fun _ => .err (.Other EAGAIN), fun _ => none, fun _ => none,
        fun _ => none⟩
      ⟨⟨1, 25⟩, none, none, (2, 2), (2, 2), false, 0, 0, 0, 0, 0⟩
      ⟨⟨1, 25⟩, none, none, (2, 2), (2, 2), false, 0, 0, 0, 0, 0⟩
      ⟨⟨1, 25⟩, none, none, (2, 2), (2, 2), false, 0, 0, 0, 0, 0⟩
      [.decodeRaw ⟨none, none, ⟨1, 25⟩⟩, .decodeRaw ⟨none, none, ⟨1, 25⟩⟩]).2.2.2.2
      rfl (by decide)

/-- An error coming out of `decoder_receive_frame` is either `ReadExhausted`
(backend EOF) or a `BackendError`. -/
theorem drf_err_shape (be : Backend) (s : DecoderSplit) (e : Error)
    (h : (s.decoder_receive_frame be).1 = .error e) :
    (e = .ReadExhausted ∧ be.receiveFrame s.nRecv = .err .Eof) ∨
    ∃ inner, e = .BackendError inner := by
  unfold DecoderSplit.decoder_receive_frame at h
  cases hr : be.receiveFrame s.nRecv with
  | ok f => rw [hr] at h; exact Except.noConfusion h
  | err e0 =>
      cases e0 with
      | Eof =>
          rw [hr] at h
          injection h with h
          exact Or.inl ⟨h.symm, rfl⟩
      | Other errno =>
          rw [hr] at h
          dsimp only at h
          by_cases he : errno = EAGAIN
          · exact absurd h (by simp [if_pos he])
          · rw [if_neg he] at h
            injection h with h
            exact Or.inr ⟨.Other errno, h.symm⟩
      | otherKind k =>
          rw [hr] at h
          injection h with h
          exact Or.inr ⟨.otherKind k, h.symm⟩

/-- An error coming out of `receive_frame_from_decoder` is either the receive
step's error or a `BackendError` from the download / scale steps. -/
theorem rffd_err_shape (be : Backend) (s : DecoderSplit) (e : Error)
    (h : (s.receive_frame_from_decoder be).1 = .error e) :
    (∃ t : DecoderSplit, (t.decoder_receive_frame be).1 = .error e) ∨
    ∃ inner, e = .BackendError inner := by
  unfold DecoderSplit.receive_frame_from_decoder at h
  rcases hres : s.decoder_receive_frame be with ⟨res, s'⟩
  rw [hres] at h
  cases res with
  | error e0 =>
      injection h with h
      exact Or.inl ⟨s, by rw [hres, h]⟩
  | ok o =>
      cases o with
      | none => exact Except.noConfusion h
      | some frame =>
          dsimp only at h
          cases hhw : s'.hwaccel_context with
          | none =>
              cases hsc : s'.scaler with
              | none => exact absurd h (by simp [hhw, hsc])
              | some sc =>
                  cases hr : be.scale s'.nScale with
                  | some e1 =>
                      simp only [hhw, hsc, hr, Except.error.injEq] at h
                      exact Or.inr ⟨e1, h.symm⟩
                  | none => exact absurd h (by simp [hhw, hsc, hr])
          | some hwc =>
              by_cases hfmt : hwc.format = frame.format
              · cases hx : be.hwTransfer s'.nXfer with
                | some e1 =>
                    simp only [hhw, if_pos hfmt, hx, Except.error.injEq] at h
                    exact Or.inr ⟨e1, h.symm⟩
                | none =>
                    cases hsc : s'.scaler with
                    | none => exact absurd h (by simp [hhw, hfmt, hx, hsc])
                    | some sc =>
                        cases hr : be.scale s'.nScale with
                        | some e1 =>
                            simp only [hhw, if_pos hfmt, hx, hsc, hr,
                              Except.error.injEq] at h
                            exact Or.inr ⟨e1, h.symm⟩
                        | none => exact absurd h (by simp [hhw, hfmt, hx, hsc, hr])
              · cases hsc : s'.scaler with
                | none => exact absurd h (by simp [hhw, hfmt, hsc])
                | some sc =>
                    cases hr : be.scale s'.nScale with
                    | some e1 =>
                        simp only [hhw, if_neg hfmt, hsc, hr,
                          Except.error.injEq] at h
                        exact Or.inr ⟨e1, h.symm⟩
                    | none => exact absurd h (by simp [hhw, hfmt, hsc, hr])

/-- An error coming out of `drain_raw` is a receive-step error or a
`BackendError` (the latter also covers a rejected EOF submission). -/
theorem drain_raw_err_shape (be : Backend) (s : DecoderSplit) (e : Error)
    (h : (s.drain_raw be).1 = .error e) :
    (∃ t : DecoderSplit, (t.decoder_receive_frame be).1 = .error e) ∨
    ∃ inner, e = .BackendError inner := by
  unfold DecoderSplit.drain_raw at h
  by_cases hd : s.draining
  · rw [hd] at h
    simp only [Bool.not_true, Bool.false_eq_true, if_false] at h
    exact rffd_err_shape be s e h
  · rw [Bool.not_eq_true] at hd
    rw [hd] at h
    simp only [Bool.not_false, if_true] at h
    cases he : be.sendEof s.nEof with
    | some e1 =>
        rw [he] at h
        injection h with h
        exact Or.inr ⟨e1, h.symm⟩
    | none =>
        rw [he] at h
        exact rffd_err_shape be _ e h

/-- An error coming out of a non-panicking `decode_raw` is a receive-step
error or a `BackendError` (the latter also covers a rejected submission). -/
theorem decode_raw_err_shape (be : Backend) (s : DecoderSplit) (p : Packet)
    (e : Error) (s' : DecoderSplit)
    (h : s.decode_raw be p = .ok (.error e, s')) :
    (∃ t : DecoderSplit, (t.decoder_receive_frame be).1 = .error e) ∨
    ∃ inner, e = .BackendError inner := by
  unfold DecoderSplit.decode_raw at h
  by_cases hd : s.draining
  · rw [hd] at h
    simp at h
  · rw [Bool.not_eq_true] at hd
    rw [hd] at h
    simp only [Bool.false_eq_true, if_false] at h
    rcases hsp : s.send_packet_to_decoder be p with ⟨res0, s₁⟩
    rw [hsp] at h
    cases res0 with
    | error e0 =>
        injection h with h
        injection h with h1 h2
        injection h1 with h1
        unfold DecoderSplit.send_packet_to_decoder at hsp
        cases hc : be.sendPacket s.nSend with
        | some e1 =>
            rw [hc] at hsp
            injection hsp with hsp1 hsp2
            injection hsp1 with hsp1
            exact Or.inr ⟨e1, by rw [← h1, ← hsp1]⟩
        | none => rw [hc] at hsp; exact (Except.noConfusion (congrArg Prod.fst hsp))
    | ok u =>
        injection h with h
        have : (s₁.receive_frame_from_decoder be).1 = .error e := by
          rw [show s₁.receive_frame_from_decoder be = (.error e, s') from h]
        exact rffd_err_shape be s₁ e this

/-- With a backend that never reports EOF on receive, `drain_raw` never
returns `ReadExhausted`. -/
theorem drain_raw_no_read_exhausted (be : Backend)
    (h2 : ∀ n, be.receiveFrame n ≠ .err .Eof) (s : DecoderSplit) :
    (s.drain_raw be).1 ≠ .error .ReadExhausted := by
  intro h
  rcases drain_raw_err_shape be s _ h with ⟨t, ht⟩ | ⟨inner, hinner⟩
  · rcases drf_err_shape be t _ ht with ⟨_, heof⟩ | ⟨inner, hinner⟩
    · exact h2 _ heof
    · exact Error.noConfusion hinner
  · exact Error.noConfusion hinner

/-- With a backend that never reports EOF on receive, `decode_raw` never
returns `ReadExhausted`. -/
theorem decode_raw_no_read_exhausted (be : Backend)
    (h2 : ∀ n, be.receiveFrame n ≠ .err .Eof) (s : DecoderSplit) (p : Packet)
    (s' : DecoderSplit)
    (h : s.decode_raw be p = .ok (.error .ReadExhausted, s')) : False := by
  rcases decode_raw_err_shape be s p _ s' h with ⟨t, ht⟩ | ⟨inner, hinner⟩
  · rcases drf_err_shape be t _ ht with ⟨_, heof⟩ | ⟨inner, hinner⟩
    · exact h2 _ heof
    · exact Error.noConfusion hinner
  · exact Error.noConfusion hinner

/-- `drain_raw` never fabricates `DecodeExhausted`. -/
theorem drain_raw_no_decode_exhausted (be : Backend) (s : DecoderSplit) :
    (s.drain_raw be).1 ≠ .error .DecodeExhausted := by
  intro h
  rcases drain_raw_err_shape be s _ h with ⟨t, ht⟩ | ⟨inner, hinner⟩
  · rcases drf_err_shape be t _ ht with ⟨habs, _⟩ | ⟨inner, hinner⟩
    · exact Error.noConfusion habs
    · exact Error.noConfusion hinner
  · exact Error.noConfusion hinner

/-- `decode_raw` never fabricates `DecodeExhausted`. -/
theorem decode_raw_no_decode_exhausted (be : Backend) (s : DecoderSplit)
    (p : Packet) (s' : DecoderSplit)
    (h : s.decode_raw be p = .ok (.error .DecodeExhausted, s')) : False := by
  rcases decode_raw_err_shape be s p _ s' h with ⟨t, ht⟩ | ⟨inner, hinner⟩
  · rcases drf_err_shape be t _ ht with ⟨habs, _⟩ | ⟨inner, hinner⟩
    · exact Error.noConfusion habs
    · exact Error.noConfusion hinner
  · exact Error.noConfusion hinner

/-- C1 counterexample: with the reader at end of input and a backend decoder
that reports EOF on drain — the normal terminal behaviour of a real decoder —
`Decoder::decode_raw` returns `Err(ReadExhausted)` to its caller: the drain
branch propagates `drain_raw`'s error through `?` instead of turning it into
`DecodeExhausted`. -/
theorem decode_raw_returns_read_exhausted :
    (Decoder.decode_raw_loop
      ⟨fun _ => none, fun _ => .err .Eof, fun _ => none, fun _ => none, fun _ => none⟩
      ⟨fun _ => .error .ReadExhausted⟩ 2
      ⟨⟨⟨1, 25⟩, none, none, (2, 2), (2, 2), false, 0, 0, 0, 0, 0⟩, false, 0⟩).errOf =
      some .ReadExhausted := by
  decide

/-- C1 amended: the reader's `ReadExhausted` is always intercepted (the loop
sets `draining` and continues), and `DecodeExhausted` is returned exactly when
`drain_raw` yields no frame (`Ok(None)`) in draining mode; provided the
backend decoder never reports EOF on receive, `decode_raw` never returns
`ReadExhausted` — but a backend EOF during drain propagates `ReadExhausted`
to the caller, which is the usual terminal error in practice. -/
theorem decode_loop_terminal (be : Backend) (rd : ReaderOracle)
    (h1 : ∀ n, rd.read n ≠ .error Error.DecodeExhausted)
    (h2 : ∀ n, be.receiveFrame n ≠ .err .Eof) :
    (∀ fuel s,
      (Decoder.decode_raw_loop be rd fuel s).errOf ≠ some .ReadExhausted) ∧
    (∀ (s : DecoderState) (sp : DecoderSplit) (fuel : Nat), s.draining = true →
      s.split.drain_raw be = (.ok none, sp) →
      Decoder.decode_raw_loop be rd (fuel + 1) s =
        .failure .DecodeExhausted { s with split := sp }) ∧
    (∀ fuel s s',
      Decoder.decode_raw_loop be rd fuel s = .failure .DecodeExhausted s' →
      ∃ st : DecoderState, st.draining = true ∧
        (st.split.drain_raw be).1 = .ok none) := by
  refine ⟨?_, ?_, ?_⟩
  · intro fuel
    induction fuel with
    | zero => intro s; simp [Decoder.decode_raw_loop, DecodeOutcome.errOf]
    | succ fuel ih =>
        intro s
        unfold Decoder.decode_raw_loop
        cases hb : s.draining with
        | true =>
            rw [if_pos rfl]
            rcases hdr : s.split.drain_raw be with ⟨res, sp⟩
            cases res with
            | ok o =>
                cases o with
                | some frame => simp [DecodeOutcome.errOf]
                | none => simp [DecodeOutcome.errOf]
            | error e =>
                have hne := drain_raw_no_read_exhausted be h2 s.split
                rw [hdr] at hne
                intro hcontra
                simp [DecodeOutcome.errOf] at hcontra
                exact hne (by simp [hcontra])
        | false =>
            rw [if_neg (by simp)]
            cases hrd : rd.read s.nRead with
            | error e =>
                cases e with
                | ReadExhausted => exact ih _
                | DecodeExhausted => simp [DecodeOutcome.errOf]
                | MissingCodecParameters => simp [DecodeOutcome.errOf]
                | InvalidResizeParameters => simp [DecodeOutcome.errOf]
                | StreamNotFound => simp [DecodeOutcome.errOf]
                | BackendError inner => simp [DecodeOutcome.errOf]
            | ok p =>
                dsimp only
                cases hdec : DecoderSplit.decode_raw be s.split p with
                | panicked => simp [DecodeOutcome.errOf]
                | ok pr =>
                    rcases pr with ⟨res2, sp⟩
                    cases res2 with
                    | error e =>
                        intro hcontra
                        simp [DecodeOutcome.errOf] at hcontra
                        subst hcontra
                        exact decode_raw_no_read_exhausted be h2 s.split p sp hdec
                    | ok o =>
                        cases o with
                        | some frame => simp [DecodeOutcome.errOf]
                        | none => exact ih _
  · intro s sp fuel hd hdr
    unfold Decoder.decode_raw_loop
    rw [hd, if_pos rfl, hdr]
  · intro fuel
    induction fuel with
    | zero => intro s s' h; exact DecodeOutcome.noConfusion h
    | succ fuel ih =>
        intro s s' h
        unfold Decoder.decode_raw_loop at h
        cases hb : s.draining with
        | true =>
            rw [hb, if_pos rfl] at h
            rcases hdr : s.split.drain_raw be with ⟨res, sp⟩
            rw [hdr] at h
            cases res with
            | ok o =>
                cases o with
                | some frame => exact DecodeOutcome.noConfusion h
                | none => exact ⟨s, hb, by rw [hdr]⟩
            | error e =>
                injection h with he _
                have hne := drain_raw_no_decode_exhausted be s.split
                rw [hdr] at hne
                exact absurd (by simp [he]) hne
        | false =>
            rw [hb, if_neg (by simp)] at h
            cases hrd : rd.read s.nRead with
            | error e =>
                rw [hrd] at h
                cases e with
                | ReadExhausted => exact ih _ _ h
                | DecodeExhausted => exact absurd hrd (h1 _)
                | MissingCodecParameters =>
                    injection h with he _; exact Error.noConfusion he
                | InvalidResizeParameters =>
                    injection h with he _; exact Error.noConfusion he
                | StreamNotFound =>
                    injection h with he _; exact Error.noConfusion he
                | BackendError inner =>
                    injection h with he _; exact Error.noConfusion he
            | ok p =>
                rw [hrd] at h
                dsimp only at h
                cases hdec : DecoderSplit.decode_raw be s.split p with
                | panicked => rw [hdec] at h; exact DecodeOutcome.noConfusion h
                | ok pr =>
                    rcases pr with ⟨res2, sp⟩
                    rw [hdec] at h
                    cases res2 with
                    | error e =>
                        injection h with he _
                        subst he
                        exact absurd hdec
                          (fun hc => decode_raw_no_decode_exhausted be s.split p sp hc)
                    | ok o =>
                        cases o with
                        | some frame => exact DecodeOutcome.noConfusion h
                        | none => exact ih _ _ h

/-- Witness for `decode_loop_terminal`: a drained backend that keeps
signalling EAGAIN makes the draining loop exit with `DecodeExhausted`. -/
theorem decode_loop_terminal_witness :
    Decoder.decode_raw_loop
      ⟨fun _ => none, fun _ => .err (.Other EAGAIN), fun _ => none, fun _ => none,
        fun _ => none⟩
      ⟨fun _ => .error .ReadExhausted⟩ 1
      ⟨⟨⟨1, 25⟩, none, none, (2, 2), (2, 2), true, 0, 0, 0, 0, 0⟩, true, 0⟩ =
      .failure .DecodeExhausted
        ⟨⟨⟨1, 25⟩, none, none, (2, 2), (2, 2), true, 0, 1, 0, 0, 0⟩, true, 0⟩ :=
  (decode_loop_terminal
    ⟨fun _ => none, fun _ => .err (.Other EAGAIN), fun _ => none, fun _ => none,
      fun _ => none⟩
    ⟨fun _ => .error .ReadExhausted⟩
    (fun _ hx => Error.noConfusion (Except.error.inj hx))
    (fun _ hx => AvError.noConfusion (ReceiveOutcome.err.inj hx))).2.1
    ⟨⟨⟨1, 25⟩, none, none, (2, 2), (2, 2), true, 0, 0, 0, 0, 0⟩, true, 0⟩
    ⟨⟨1, 25⟩, none, none, (2, 2), (2, 2), true, 0, 1, 0, 0, 0⟩ 0 rfl rfl

end FFPlayer
